import Mathlib

/-!
Verification development for the FTSEMIB Quant Superior trading core
(`modules/trading_logic.py`, `modules/data_fetcher.py`).

Shallow embedding conventions:
* Python floats are modelled by `ℚ` (the trading logic only compares, adds,
  multiplies and divides), except the numpy standard deviation, which is a
  genuine square root and is modelled in `ℝ`.
* A Python dict field that may be missing or `None` is an `Option`;
  for the fields read by the trading logic (`spy_ret`, `gap_open`, `vix_ret`,
  `vol_z`, `close`, `open`) the source treats a missing key and a `None`
  value identically, so one `Option` layer suffices.  In `merge_data`,
  where key *presence* matters for dict equality, two layers are used.
* Date strings ("YYYY-MM-DD") are abstracted to `ℕ` tokens: the code only
  ever compares them for equality or passes them through.
-/

namespace QuantSuperior

/-- A row of the enriched bar sequence as consumed by `TradingLogic`
(`trading_logic.py`).  Each field models the dict entry of the same name;
`none` models a missing key or a stored `None` (the trading code guards
every read with `in row` / `is not None` / `.get`, treating both alike).
`dow` models the "dow" key, which the pipeline always stores as an int. -/
structure Row where
  date : Option ℕ
  time : Option ℕ
  open_ : Option ℚ
  high : Option ℚ
  low : Option ℚ
  close : Option ℚ
  volume : Option ℚ
  gap_open : Option ℚ
  spy_ret : Option ℚ
  vix_ret : Option ℚ
  vol_z : Option ℚ
  dow : Option ℕ
  deriving DecidableEq, Repr

/-- Engine configuration: the only state `TradingLogic.__init__` stores on
`self` (`cost_bps_per_side`, default 2.0). -/
structure Config where
  cost_bps_per_side : ℚ
  deriving DecidableEq, Repr

/-- `TradingLogic.ALLOWED_DAYS = {0, 1, 2, 3}` (Mon-Thu). -/
def ALLOWED_DAYS : List ℕ := [0, 1, 2, 3]

/-- `TradingLogic.filter_signals(row)` (trading_logic.py lines 23-43):
reject when `spy_ret` is present, non-None and `< -0.005`; reject when
`dow` is present and not in `ALLOWED_DAYS`; otherwise accept. -/
def filter_signals (row : Row) : Bool :=
  match row.spy_ret with
  | some s =>
    if s < -0.005 then false
    else
      match row.dow with
      | some d => if d ∈ ALLOWED_DAYS then true else false
      | none => true
  | none =>
    match row.dow with
    | some d => if d ∈ ALLOWED_DAYS then true else false
    | none => true

/-- `TradingLogic.match_top3_pattern(row)` (trading_logic.py lines 45-77):
`cond` starts false, is set by the mandatory gap-open check, and each of the
three soft checks clears it when the field is present and out of range. -/
def match_top3_pattern (row : Row) : Bool :=
  let cond : Bool :=
    match row.gap_open with
    | some g => decide (0 < g ∧ g ≤ 0.01)
    | none => false
  let cond : Bool :=
    match row.spy_ret with
    | some s => if cond ∧ ¬(0 ≤ s ∧ s ≤ 0.01) then false else cond
    | none => cond
  let cond : Bool :=
    match row.vix_ret with
    | some v => if cond ∧ ¬(-0.10 ≤ v ∧ v ≤ -0.05) then false else cond
    | none => cond
  let cond : Bool :=
    match row.vol_z with
    | some z => if cond ∧ ¬(-1.5 ≤ z ∧ z ≤ -0.5) then false else cond
    | none => cond
  cond

/-- `TradingLogic.calculate_overnight_pnl` (trading_logic.py lines 79-105).
Returns `(raw_points, cost_points, pnl_points)`; `cost_bps = none` models the
Python default `None`, which falls back to `self.cost_bps_per_side`. -/
def calculate_overnight_pnl (cfg : Config) (entry_close exit_open : ℚ)
    (cost_bps : Option ℚ) : ℚ × ℚ × ℚ :=
  if entry_close = 0 then (0, 0, 0)
  else
    let bps := cost_bps.getD cfg.cost_bps_per_side
    let raw_points := exit_open - entry_close
    let cost_points := (2.0 * bps / 10000.0) * entry_close
    (raw_points, cost_points, raw_points - cost_points)

/-- The explanation snapshot stored on a LONG signal
(`generate_signal`, trading_logic.py lines 129-133). -/
structure Explain where
  gap_open : Option ℚ
  spy_ret : Option ℚ
  vix_ret : Option ℚ
  vol_z : Option ℚ
  dow : Option ℕ
  deriving DecidableEq, Repr

/-- The dict returned by `generate_signal`; `explain = none` models the
empty dict `{}`. -/
structure SignalDecision where
  signal : String
  date : Option ℕ
  explain : Option Explain
  deriving DecidableEq, Repr

/-- `TradingLogic.generate_signal(rows, last_row=None)` (trading_logic.py
lines 107-141).  The `rows` parameter is never read by the body.  A `some`
row is truthy (pipeline rows always carry keys, so the empty-dict falsy
case does not arise). -/
def generate_signal (_cfg : Config) (_rows : List Row)
    (last_row : Option Row) : SignalDecision :=
  match last_row with
  | some lr =>
    if filter_signals lr then
      if match_top3_pattern lr then
        { signal := "LONG", date := lr.date,
          explain := some ⟨lr.gap_open, lr.spy_ret, lr.vix_ret, lr.vol_z, lr.dow⟩ }
      else { signal := "FLAT", date := lr.date, explain := none }
    else { signal := "FLAT", date := lr.date, explain := none }
  | none => { signal := "FLAT", date := none, explain := none }

/-- One trade record as appended by the backtest loop
(trading_logic.py lines 196-208). -/
structure Trade where
  entry_date : Option ℕ
  entry_time : Option ℕ
  exit_time : Option ℕ
  entry_close : ℚ
  exit_open : ℚ
  raw_points : ℚ
  cost_points : ℚ
  pnl_points : ℚ
  return_pct : ℚ
  spy_ret : Option ℚ
  vix_ret : Option ℚ
  deriving DecidableEq, Repr

/-- One equity-curve point (trading_logic.py lines 211-213). -/
structure EquityPoint where
  time : Option ℕ
  value : ℚ
  deriving DecidableEq, Repr

/-- One chart marker (trading_logic.py lines 216-233). -/
structure Marker where
  time : Option ℕ
  position : String
  shape : String
  text : String
  color : String
  deriving DecidableEq, Repr

/-- The metrics dict of `_calculate_metrics` (trading_logic.py
lines 253-281). -/
structure Metrics where
  total_trades : ℕ
  win_rate : ℚ
  avg_trade_pct : ℚ
  avg_points : ℚ
  total_return_pct : ℚ
  cagr : ℚ
  deriving DecidableEq, Repr

/-- The dict returned by `TradingLogic.backtest`. -/
structure BTResult where
  trades : List Trade
  equity_curve : List EquityPoint
  markers : List Marker
  metrics : Metrics
  signal_next : SignalDecision
  deriving DecidableEq, Repr

/-- The loop accumulators of `backtest`
(trading_logic.py lines 157-160). -/
structure BTState where
  trades : List Trade
  equity_curve : List EquityPoint
  markers : List Marker
  equity_value : ℚ
  deriving DecidableEq, Repr

/-- Python 3 `round` ties-to-even on an exact rational. -/
def roundHalfEven (x : ℚ) : ℤ :=
  let f := Int.floor x
  let r := x - f
  if r < 1/2 then f
  else if 1/2 < r then f + 1
  else if f % 2 = 0 then f else f + 1

/-- `round(x, nd)` of Python, on the exact rational model of the float. -/
def pyRound (x : ℚ) (nd : ℕ) : ℚ :=
  (roundHalfEven (x * 10 ^ nd) : ℚ) / 10 ^ nd

/-- `TradingLogic._calculate_metrics(trades, equity)` (trading_logic.py
lines 249-281). -/
def calculate_metrics (trades : List Trade) (equity : List EquityPoint) :
    Metrics :=
  let n := trades.length
  if n = 0 then
    { total_trades := 0, win_rate := 0, avg_trade_pct := 0, avg_points := 0,
      total_return_pct := 0, cagr := 0 }
  else
    let returns := trades.map (fun t => t.return_pct)
    let wins := trades.filter (fun t => decide (t.return_pct > 0))
    let avg_trade := returns.sum / n
    let win_rate := ((wins.length : ℚ) / n) * 100
    let avg_points := (trades.map (fun t => t.pnl_points)).sum / n
    let total_return :=
      match equity.getLast? with
      | some e => (e.value - 1) * 100
      | none => 0
    { total_trades := n, win_rate := pyRound win_rate 2,
      avg_trade_pct := pyRound avg_trade 4,
      avg_points := pyRound avg_points 2,
      total_return_pct := pyRound total_return 2, cagr := 0 }

/-- One iteration of the backtest loop body (trading_logic.py lines
162-233) at index `i`; `continue` is modelled by returning the state
unchanged. -/
def backtest_step (cfg : Config) (rows : List Row) (st : BTState) (i : ℕ) :
    BTState :=
  match rows[i]?, rows[i+1]? with
  | some current_row, some next_row =>
    if ¬ filter_signals current_row then st
    else if ¬ match_top3_pattern current_row then st
    else
      match current_row.close, next_row.open_ with
      | some c, some o =>
        let (raw_pts, cost_pts, pnl_pts) :=
          calculate_overnight_pnl cfg c o (some cfg.cost_bps_per_side)
        if c = 0 then st
        else
          let pnl_pct := raw_pts / c
          let net_ret := pnl_pct - 2.0 * cfg.cost_bps_per_side / 10000.0
          let equity_value := st.equity_value * (1 + net_ret)
          { trades := st.trades ++
              [{ entry_date := current_row.date,
                 entry_time := current_row.time,
                 exit_time := next_row.time,
                 entry_close := c, exit_open := o,
                 raw_points := raw_pts, cost_points := cost_pts,
                 pnl_points := pnl_pts, return_pct := net_ret * 100,
                 spy_ret := current_row.spy_ret,
                 vix_ret := current_row.vix_ret }],
            equity_curve := st.equity_curve ++
              [{ time := next_row.time, value := equity_value }],
            markers := st.markers ++
              [{ time := current_row.time, position := "belowBar",
                 shape := "arrowUp", text := "QS BUY", color := "#26a69a" },
               { time := next_row.time, position := "aboveBar",
                 shape := "arrowDown", text := "QS SELL", color := "#ef5350" }],
            equity_value := equity_value }
      | _, _ => st
  | _, _ => st

/-- `TradingLogic.backtest(rows)` (trading_logic.py lines 143-247).
Note the source calls `self.generate_signal(rows)` with the `last_row`
argument left at its default `None`. -/
def backtest (cfg : Config) (rows : List Row) : BTResult :=
  let st := (List.range (rows.length - 1)).foldl (backtest_step cfg rows)
    { trades := [], equity_curve := [], markers := [], equity_value := 1.0 }
  { trades := st.trades, equity_curve := st.equity_curve,
    markers := st.markers,
    metrics := calculate_metrics st.trades st.equity_curve,
    signal_next := generate_signal cfg rows none }

/-- The mandatory gap-open condition of the TOP3 pattern, as a predicate. -/
def gap_ok (row : Row) : Bool :=
  match row.gap_open with
  | some g => decide (0 < g ∧ g ≤ 0.01)
  | none => false

/-- The soft `spy_ret` condition of the TOP3 pattern, as a predicate. -/
def spy_ok (row : Row) : Bool :=
  match row.spy_ret with
  | some s => decide (0 ≤ s ∧ s ≤ 0.01)
  | none => true

/-- The soft `vix_ret` condition of the TOP3 pattern, as a predicate. -/
def vix_ok (row : Row) : Bool :=
  match row.vix_ret with
  | some v => decide (-0.10 ≤ v ∧ v ≤ -0.05)
  | none => true

/-- The soft `vol_z` condition of the TOP3 pattern, as a predicate. -/
def volz_ok (row : Row) : Bool :=
  match row.vol_z with
  | some z => decide (-1.5 ≤ z ∧ z ≤ -0.5)
  | none => true

/-- A soft pattern check `if cond and not P: cond = False` leaves `cond`
conjoined with `P`. -/
theorem soft_gate (c : Bool) (P : Prop) [Decidable P] :
    (if c = true ∧ ¬P then false else c) = (c && decide P) := by
  by_cases hc : c = true <;> by_cases hp : P <;> simp [hc, hp]

/-- The sequential clear-on-violation loop of `match_top3_pattern` computes
the conjunction of the four per-field predicates. -/
theorem match_top3_pattern_eq_and (row : Row) :
    match_top3_pattern row =
      (gap_ok row && (spy_ok row && (vix_ok row && volz_ok row))) := by
  obtain ⟨d, t, o, hi, lo, c, vo, g, s, v, z, w⟩ := row
  cases g <;> cases s <;> cases v <;> cases z <;>
    simp only [match_top3_pattern, gap_ok, spy_ok, vix_ok, volz_ok,
      soft_gate, Bool.false_and, Bool.and_true, Bool.true_and,
      Bool.and_false, Bool.and_assoc]

/-- C2: `match_top3_pattern` is true iff `gap_open` is defined and in
`(0, 0.01]`, and each of `spy_ret ∈ [0, 0.01]`, `vix_ret ∈ [-0.10, -0.05]`,
`vol_z ∈ [-1.5, -0.5]` that is defined lies within its bound; an undefined
soft field never rejects, an undefined `gap_open` always rejects. -/
theorem match_top3_pattern_iff (row : Row) :
    match_top3_pattern row = true ↔
      (∃ g, row.gap_open = some g ∧ 0 < g ∧ g ≤ 0.01) ∧
      (∀ s, row.spy_ret = some s → 0 ≤ s ∧ s ≤ 0.01) ∧
      (∀ v, row.vix_ret = some v → -0.10 ≤ v ∧ v ≤ -0.05) ∧
      (∀ z, row.vol_z = some z → -1.5 ≤ z ∧ z ≤ -0.5) := by
  rw [match_top3_pattern_eq_and]
  obtain ⟨d, t, o, hi, lo, c, vo, g, s, v, z, w⟩ := row
  cases g <;> cases s <;> cases v <;> cases z <;>
    simp only [gap_ok, spy_ok, vix_ok, volz_ok, Bool.and_eq_true,
      decide_eq_true_eq, Bool.true_and, Bool.and_true, Bool.false_and,
      Bool.false_eq_true, Option.some.injEq, false_and, and_false,
      exists_false, false_iff, not_and, not_exists, reduceCtorEq] <;>
    simp

/-- An enriched bar that passes both `filter_signals` and
`match_top3_pattern` (the Scenario C bar of the specification). -/
def signal_bar : Row :=
  { date := some 20240102, time := some 1000, open_ := some 100, high := none,
    low := none, close := some 100, volume := none, gap_open := some 0.005,
    spy_ret := some 0.004, vix_ret := some (-0.07), vol_z := some (-1.0),
    dow := some 1 }

/-- C1: `backtest` invokes `generate_signal(rows)` with `last_row` left at
its default `None`, so `signal_next` is the constant FLAT decision with no
date and empty explanation — even when the last bar passes both
`SignalFilter` and `PatternMatcher`, in which case calling the signal
generator on that bar (as the spec prescribes) yields LONG with the bar's
date and the explanation snapshot. -/
theorem backtest_signal_next_always_flat :
    (∀ (cfg : Config) (rows : List Row),
       (backtest cfg rows).signal_next =
         { signal := "FLAT", date := none, explain := none }) ∧
    filter_signals signal_bar = true ∧
    match_top3_pattern signal_bar = true ∧
    signal_bar.date = some 20240102 ∧
    generate_signal ⟨2⟩ [signal_bar] (some signal_bar) =
      { signal := "LONG", date := some 20240102,
        explain := some ⟨some 0.005, some 0.004, some (-0.07), some (-1.0),
          some 1⟩ } := by
  have h1 : filter_signals signal_bar = true := by
    simp only [filter_signals, signal_bar]
    norm_num [ALLOWED_DAYS]
  have h2 : match_top3_pattern signal_bar = true := by
    rw [match_top3_pattern_eq_and]
    simp only [gap_ok, spy_ok, vix_ok, volz_ok, signal_bar, Bool.and_eq_true,
      decide_eq_true_eq]
    norm_num
  refine ⟨fun _ _ => rfl, h1, h2, rfl, ?_⟩
  simp [generate_signal, h1, h2]
  simp [signal_bar]

/-- C8: on the empty sequence and on any single-bar sequence, `backtest`
returns the well-formed empty result: no trades, no equity points, no
markers, all-zero metrics, and a FLAT signal. -/
theorem backtest_degenerate (cfg : Config) (r : Row) :
    backtest cfg [] =
      { trades := [], equity_curve := [], markers := [],
        metrics := { total_trades := 0, win_rate := 0, avg_trade_pct := 0,
                     avg_points := 0, total_return_pct := 0, cagr := 0 },
        signal_next := { signal := "FLAT", date := none, explain := none } } ∧
    backtest cfg [r] =
      { trades := [], equity_curve := [], markers := [],
        metrics := { total_trades := 0, win_rate := 0, avg_trade_pct := 0,
                     avg_points := 0, total_return_pct := 0, cagr := 0 },
        signal_next := { signal := "FLAT", date := none, explain := none } } :=
  ⟨rfl, rfl⟩

/-- The `backtest` method with the receiver state threaded explicitly:
the Python body reads `self.cost_bps_per_side` and never assigns any
attribute of `self`, so the method leaves the receiver state unchanged. -/
def backtest_method (cfg : Config) (rows : List Row) : BTResult × Config :=
  (backtest cfg rows, cfg)

/-- C9: running `backtest` a second time on the same input, starting from
the engine state the first call left behind, produces the identical result,
and the surviving engine state is exactly the original configuration. -/
theorem backtest_deterministic (cfg : Config) (rows : List Row) :
    (backtest_method cfg rows).2 = cfg ∧
    (backtest_method (backtest_method cfg rows).2 rows).1 =
      (backtest_method cfg rows).1 :=
  ⟨rfl, rfl⟩

/-- One loop iteration with the row list threaded through explicitly: the
body of the Python loop only reads `rows` (it builds fresh trade, equity
and marker dicts), so the iteration passes the list on unchanged. -/
def backtest_step_frame (cfg : Config) (p : BTState × List Row) (i : ℕ) :
    BTState × List Row :=
  (backtest_step cfg p.2 p.1 i, p.2)

/-- `backtest` with the row list threaded through the whole loop and
returned alongside the result. -/
def backtest_frame (cfg : Config) (rows : List Row) : BTResult × List Row :=
  let p := (List.range (rows.length - 1)).foldl (backtest_step_frame cfg)
    ({ trades := [], equity_curve := [], markers := [], equity_value := 1.0 },
      rows)
  ({ trades := p.1.trades, equity_curve := p.1.equity_curve,
     markers := p.1.markers,
     metrics := calculate_metrics p.1.trades p.1.equity_curve,
     signal_next := generate_signal cfg p.2 none }, p.2)

/-- Folding the threaded loop step leaves the row-list component fixed. -/
theorem foldl_step_frame (cfg : Config) (l : List ℕ) (st : BTState)
    (rows : List Row) :
    l.foldl (backtest_step_frame cfg) (st, rows)
      = (l.foldl (backtest_step cfg rows) st, rows) := by
  induction l generalizing st with
  | nil => rfl
  | cons a l ih => simpa only [List.foldl_cons] using ih (backtest_step cfg rows st a)

/-- C10: `backtest` does not modify its input rows — after the loop the row
list is exactly the one supplied — and it computes the same result as the
plain function of its inputs. -/
theorem backtest_frame_preserves_rows (cfg : Config) (rows : List Row) :
    (backtest_frame cfg rows).2 = rows ∧
    (backtest_frame cfg rows).1 = backtest cfg rows := by
  unfold backtest_frame backtest
  rw [foldl_step_frame]
  exact ⟨rfl, rfl⟩

/-- The compounded growth factor of a trade list: the product of
`1 + net_return` over the trades, where each trade stores its net return
as `return_pct = net_return * 100`. -/
def net_return_product (trades : List Trade) : ℚ :=
  trades.foldl (fun a t => a * (1 + t.return_pct / 100)) 1

theorem net_return_product_append (ts : List Trade) (t : Trade) :
    net_return_product (ts ++ [t])
      = net_return_product ts * (1 + t.return_pct / 100) := by
  simp [net_return_product, List.foldl_append]

/-- Loop invariant of the backtest: equity points pair up with trades, the
running equity is the product of `1 + net_return` over the trades so far,
and the `k`-th equity point records the partial product over the first
`k + 1` trades. -/
def EquityInv (st : BTState) : Prop :=
  st.equity_curve.length = st.trades.length ∧
  st.equity_value = net_return_product st.trades ∧
  ∀ k (hk : k < st.equity_curve.length),
    (st.equity_curve[k]).value = net_return_product (st.trades.take (k + 1))

theorem equityInv_append (st : BTState) (t : Trade) (tm : Option ℕ)
    (ms : List Marker) (net : ℚ) (hret : t.return_pct = net * 100)
    (h : EquityInv st) :
    EquityInv { trades := st.trades ++ [t],
                equity_curve := st.equity_curve ++
                  [{ time := tm, value := st.equity_value * (1 + net) }],
                markers := st.markers ++ ms,
                equity_value := st.equity_value * (1 + net) } := by
  obtain ⟨hlen, hval, hpts⟩ := h
  have hnet : t.return_pct / 100 = net := by
    rw [hret, mul_div_cancel_right₀ _ (by norm_num : (100 : ℚ) ≠ 0)]
  refine ⟨by simp [hlen], ?_, ?_⟩
  · rw [net_return_product_append, hval, hnet]
  · intro k hk
    simp only [List.length_append, List.length_cons, List.length_nil] at hk
    by_cases hlt : k < st.equity_curve.length
    · rw [List.getElem_append_left hlt,
        List.take_append_of_le_length (by omega : k + 1 ≤ st.trades.length)]
      exact hpts k hlt
    · have hkeq : k = st.equity_curve.length := by omega
      rw [List.getElem_concat_length _ _ _ hkeq,
        List.take_of_length_le (by simp [← hlen]; omega)]
      rw [net_return_product_append, hval, hnet]

theorem backtest_step_inv (cfg : Config) (rows : List Row) (i : ℕ)
    (st : BTState) (h : EquityInv st) :
    EquityInv (backtest_step cfg rows st i) := by
  unfold backtest_step
  cases h1 : rows[i]? with
  | none => exact h
  | some cur =>
    cases h2 : rows[i+1]? with
    | none => exact h
    | some nxt =>
      dsimp only
      split_ifs with hf hm
      · cases hc : cur.close with
        | none => exact h
        | some c =>
          cases ho : nxt.open_ with
          | none => exact h
          | some o =>
            dsimp only
            split_ifs with hc0
            · exact h
            · exact equityInv_append st _ nxt.time _ _ rfl h
      · exact h
      · exact h

theorem foldl_backtest_step_inv (cfg : Config) (rows : List Row)
    (l : List ℕ) (st : BTState) (h : EquityInv st) :
    EquityInv (l.foldl (backtest_step cfg rows) st) := by
  induction l generalizing st with
  | nil => exact h
  | cons a l ih => exact ih _ (backtest_step_inv cfg rows a st h)

/-- `total_return_pct` is the 2-decimal rounding of
`(last equity value - 1) * 100` whenever an equity point exists. -/
theorem calculate_metrics_total_return (trades : List Trade)
    (equity : List EquityPoint) (hlen : equity.length = trades.length)
    (e : EquityPoint) (he : equity.getLast? = some e) :
    (calculate_metrics trades equity).total_return_pct
      = pyRound ((e.value - 1) * 100) 2 := by
  have hne : equity ≠ [] := by
    intro h0
    rw [h0] at he
    simp at he
  have hn : ¬ trades.length = 0 := by
    rw [← hlen]
    simp only [List.length_eq_zero]
    exact hne
  unfold calculate_metrics
  rw [if_neg hn]
  simp only [he]

/-- C5 (amended): equity points pair up one-to-one with trades, the equity
value recorded with the `k`-th emitted trade is the product of
`1 + net_return` over the first `k` trades (equity starting at 1.0), and
`total_return_pct` is `(final equity value - 1) * 100` rounded to two
decimal places, taken from the last equity-curve point. -/
theorem backtest_equity_product (cfg : Config) (rows : List Row) :
    (backtest cfg rows).equity_curve.length
        = (backtest cfg rows).trades.length ∧
    (∀ k (hk : k < (backtest cfg rows).equity_curve.length),
      ((backtest cfg rows).equity_curve[k]).value
        = net_return_product ((backtest cfg rows).trades.take (k + 1))) ∧
    (∀ e, (backtest cfg rows).equity_curve.getLast? = some e →
      (backtest cfg rows).metrics.total_return_pct
        = pyRound ((e.value - 1) * 100) 2) := by
  have hinit : EquityInv
      { trades := [], equity_curve := [], markers := [], equity_value := 1.0 } := by
    refine ⟨rfl, ?_, fun k hk => absurd hk (Nat.not_lt_zero k)⟩
    norm_num [net_return_product]
  have hinv := foldl_backtest_step_inv cfg rows (List.range (rows.length - 1))
    { trades := [], equity_curve := [], markers := [], equity_value := 1.0 }
    hinit
  obtain ⟨hlen, hval, hpts⟩ := hinv
  exact ⟨hlen, hpts, fun e he =>
    calculate_metrics_total_return _ _ hlen e he⟩

/-- First bar of a two-bar sequence that triggers exactly one trade
(entry close 3, pattern and filter both pass). -/
def c5row0 : Row :=
  { date := some 1, time := some 10, open_ := some 3, high := none,
    low := none, close := some 3, volume := none, gap_open := some 0.005,
    spy_ret := none, vix_ret := none, vol_z := none, dow := some 1 }

/-- Second bar of the two-bar sequence (exit open 4). -/
def c5row1 : Row :=
  { date := some 2, time := some 20, open_ := some 4, high := none,
    low := none, close := some 4, volume := none, gap_open := none,
    spy_ret := none, vix_ret := none, vol_z := none, dow := some 2 }

/-- The single trade emitted on `[c5row0, c5row1]`: net return
`1/3 - 0.0004 = 2497/7500`, stored as percentage `2497/75`. -/
def c5trade : Trade :=
  { entry_date := some 1, entry_time := some 10, exit_time := some 20,
    entry_close := 3, exit_open := 4, raw_points := 1, cost_points := 3/2500,
    pnl_points := 2497/2500, return_pct := 2497/75, spy_ret := none,
    vix_ret := none }

theorem c5_step_eval :
    (List.range (([c5row0, c5row1] : List Row).length - 1)).foldl
        (backtest_step ⟨2⟩ [c5row0, c5row1])
        { trades := [], equity_curve := [], markers := [], equity_value := 1.0 }
      = { trades := [c5trade],
          equity_curve := [{ time := some 20, value := 9997/7500 }],
          markers :=
            [{ time := some 10, position := "belowBar", shape := "arrowUp",
               text := "QS BUY", color := "#26a69a" },
             { time := some 20, position := "aboveBar", shape := "arrowDown",
               text := "QS SELL", color := "#ef5350" }],
          equity_value := 9997/7500 } := by
  have hf : filter_signals c5row0 = true := by
    simp [filter_signals, c5row0, ALLOWED_DAYS]
  have hm : match_top3_pattern c5row0 = true := by
    rw [match_top3_pattern_eq_and]
    simp only [gap_ok, spy_ok, vix_ok, volz_ok, c5row0, Bool.and_eq_true,
      decide_eq_true_eq]
    norm_num
  rw [show (List.range (([c5row0, c5row1] : List Row).length - 1)) = [0]
      from rfl, List.foldl_cons, List.foldl_nil]
  unfold backtest_step
  rw [show ([c5row0, c5row1] : List Row)[0]? = some c5row0 from rfl,
    show ([c5row0, c5row1] : List Row)[0+1]? = some c5row1 from rfl]
  simp only [hf, hm, not_true_eq_false, if_false,
    show c5row0.close = some (3 : ℚ) from rfl,
    show c5row1.open_ = some (4 : ℚ) from rfl]
  norm_num [calculate_overnight_pnl, c5row0, c5row1, c5trade]

theorem c5_backtest_eval :
    (backtest ⟨2⟩ [c5row0, c5row1]).equity_curve
        = [{ time := some 20, value := 9997/7500 }] ∧
    (backtest ⟨2⟩ [c5row0, c5row1]).trades = [c5trade] ∧
    (backtest ⟨2⟩ [c5row0, c5row1]).metrics.total_return_pct = 3329/100 := by
  have hpr : pyRound ((2497 : ℚ)/75) 2 = 3329/100 := by
    have h1 : ((2497 : ℚ)/75) * 10 ^ 2 = 9988/3 := by norm_num
    have h2 : ⌊(9988/3 : ℚ)⌋ = 3329 := by
      rw [Int.floor_eq_iff]
      norm_num
    unfold pyRound roundHalfEven
    rw [h1, h2]
    norm_num
  have hec : (backtest ⟨2⟩ [c5row0, c5row1]).equity_curve
      = [{ time := some 20, value := 9997/7500 }] := by
    simp only [backtest]
    rw [c5_step_eval]
  have htr : (backtest ⟨2⟩ [c5row0, c5row1]).trades = [c5trade] := by
    simp only [backtest]
    rw [c5_step_eval]
  have hmet : (backtest ⟨2⟩ [c5row0, c5row1]).metrics
      = calculate_metrics [c5trade] [{ time := some 20, value := 9997/7500 }] := by
    simp only [backtest]
    rw [c5_step_eval]
  refine ⟨hec, htr, ?_⟩
  rw [hmet]
  unfold calculate_metrics
  norm_num [hpr]

/-- C5 counterexample: on the two-bar sequence with entry close 3 and exit
open 4 the final equity point has value `9997/7500`, so the claim's exact
`(final - 1) * 100 = 2497/75 = 33.29333…` differs from the reported
`total_return_pct`, which the code rounds to two decimals, `33.29`. -/
theorem backtest_total_return_rounding_counterexample :
    (backtest ⟨2⟩ [c5row0, c5row1]).equity_curve.getLast?
        = some { time := some 20, value := 9997/7500 } ∧
    (backtest ⟨2⟩ [c5row0, c5row1]).metrics.total_return_pct = 3329/100 ∧
    ((3329 : ℚ)/100) ≠ (((9997 : ℚ)/7500) - 1) * 100 := by
  obtain ⟨hec, _, hm⟩ := c5_backtest_eval
  refine ⟨by rw [hec]; rfl, hm, by norm_num⟩

/-- C5 witness: the amended theorem instantiated on the concrete
one-trade backtest. -/
theorem backtest_equity_product_witness :
    0 < (backtest ⟨2⟩ [c5row0, c5row1]).equity_curve.length ∧
    ((backtest ⟨2⟩ [c5row0, c5row1]).equity_curve.getD 0
        { time := none, value := 0 }).value
      = net_return_product ((backtest ⟨2⟩ [c5row0, c5row1]).trades.take 1) ∧
    (backtest ⟨2⟩ [c5row0, c5row1]).equity_curve.getLast?
      = some { time := some 20, value := 9997/7500 } ∧
    (backtest ⟨2⟩ [c5row0, c5row1]).metrics.total_return_pct
      = pyRound ((((9997 : ℚ)/7500) - 1) * 100) 2 := by
  obtain ⟨hec, _, _⟩ := c5_backtest_eval
  have h0 : 0 < (backtest ⟨2⟩ [c5row0, c5row1]).equity_curve.length := by
    rw [hec]
    norm_num
  have hlast : (backtest ⟨2⟩ [c5row0, c5row1]).equity_curve.getLast?
      = some { time := some 20, value := 9997/7500 } := by
    rw [hec]
    rfl
  have h2 := (backtest_equity_product ⟨2⟩ [c5row0, c5row1]).2.1 0 h0
  have h3 := (backtest_equity_product ⟨2⟩ [c5row0, c5row1]).2.2 _ hlast
  refine ⟨h0, ?_, hlast, h3⟩
  rw [List.getD_eq_getElem?_getD, List.getElem?_eq_getElem h0, Option.getD_some]
  exact h2

/-- C3: `filter_signals` returns false iff `spy_ret` is defined and
`< -0.005`, or `dow` is defined and outside Monday-Thursday; an undefined
field never causes rejection. -/
theorem filter_signals_false_iff (row : Row) :
    filter_signals row = false ↔
      (∃ s, row.spy_ret = some s ∧ s < -0.005) ∨
      (∃ d, row.dow = some d ∧ d ∉ ALLOWED_DAYS) := by
  obtain ⟨d, t, o, hi, lo, c, vo, g, s, v, z, w⟩ := row
  simp only [filter_signals]
  cases s with
  | none =>
    cases w with
    | none => simp
    | some dv => by_cases hd : dv ∈ ALLOWED_DAYS <;> simp [hd]
  | some sv =>
    by_cases hs : sv < -0.005
    · simp [hs]
    · cases w with
      | none => simp [hs]
      | some dv => by_cases hd : dv ∈ ALLOWED_DAYS <;> simp [hs, hd]

/-! ### DataFetcher: indicators (`data_fetcher.py`, `calculate_indicators`) -/

/-- A raw OHLCV bar as produced by `fetch_ohlcv` (data_fetcher.py lines
47-61): date string (abstracted to a `ℕ` token), epoch timestamp, OHLC
floats and the volume. -/
structure Bar where
  date : ℕ
  time : ℕ
  open_ : ℚ
  high : ℚ
  low : ℚ
  close : ℚ
  volume : ℚ
  deriving DecidableEq, Repr

/-- The `gap_open` value computed for position `i` by
`calculate_indicators` (data_fetcher.py lines 84-93): `None` at position 0,
`open[i]/close[i-1] - 1.0` when the previous close is nonzero, `None`
otherwise. -/
def gap_open (rows : List Bar) (i : ℕ) : Option ℚ :=
  if i = 0 then none
  else
    match rows[i-1]?, rows[i]? with
    | some prev, some curr =>
      if prev.close ≠ 0 then some (curr.open_ / prev.close - 1.0) else none
    | _, _ => none

/-- The volume slice `rows[max(0, i-19) : i+1]` mapped to volumes
(data_fetcher.py lines 103-104); `ℕ` subtraction truncates at 0 exactly
like Python's `max(0, i-19)`. -/
def volWindow (rows : List Bar) (i : ℕ) : List ℚ :=
  ((rows.take (i+1)).drop (i - 19)).map (fun r => r.volume)

/-- `np.mean` of a window. -/
def npMean (w : List ℚ) : ℚ := w.sum / w.length

/-- The population variance underlying `np.std`. -/
def npVariance (w : List ℚ) : ℚ :=
  (w.map (fun x => (x - npMean w) ^ 2)).sum / w.length

/-- `np.std` of a window: the square root of the population variance. -/
noncomputable def npStd (w : List ℚ) : ℝ := Real.sqrt (npVariance w)

/-- `vol_ma_list[i]` (data_fetcher.py line 106). -/
def vol_ma (rows : List Bar) (i : ℕ) : ℚ := npMean (volWindow rows i)

/-- `vol_std_list[i]` (data_fetcher.py line 107). -/
noncomputable def vol_std (rows : List Bar) (i : ℕ) : ℝ := npStd (volWindow rows i)

open Classical in
/-- `vol_z` for position `i` (data_fetcher.py lines 112-120): defined as
`(volume[i] - vol_ma[i]) / vol_std[i]` when `vol_std_list[i]` is truthy and
positive, `None` otherwise. -/
noncomputable def vol_z (rows : List Bar) (i : ℕ) : Option ℝ :=
  match rows[i]? with
  | none => none
  | some r =>
    if vol_std rows i ≠ 0 ∧ 0 < vol_std rows i then
      some (((r.volume - vol_ma rows i : ℚ) : ℝ) / vol_std rows i)
    else none

/-- C7: `gap_open[0]` is always undefined; for `i > 0` it is
`open[i]/close[i-1] - 1` exactly when `close[i-1]` is nonzero, and
undefined when `close[i-1]` is zero. -/
theorem gap_open_spec (rows : List Bar) (i : ℕ) (hi : i < rows.length) :
    (i = 0 → gap_open rows i = none) ∧
    (0 < i → ∀ g : ℚ,
      (gap_open rows i = some g ↔
        rows[i-1].close ≠ 0 ∧ g = rows[i].open_ / rows[i-1].close - 1.0)) ∧
    (0 < i → rows[i-1].close = 0 → gap_open rows i = none) := by
  refine ⟨fun h0 => by simp [gap_open, h0], ?_, ?_⟩
  · intro hpos g
    have hprev : i - 1 < rows.length := by omega
    unfold gap_open
    rw [if_neg (by omega : ¬ i = 0), List.getElem?_eq_getElem hprev,
      List.getElem?_eq_getElem hi]
    by_cases hc : rows[i-1].close = 0
    · simp [hc]
    · dsimp only
      rw [if_pos hc]
      simp only [Option.some.injEq]
      exact ⟨fun h => ⟨hc, h.symm⟩, fun h => h.2.symm⟩
  · intro hpos hc
    have hprev : i - 1 < rows.length := by omega
    unfold gap_open
    rw [if_neg (by omega : ¬ i = 0), List.getElem?_eq_getElem hprev,
      List.getElem?_eq_getElem hi]
    simp [hc]

/-- Two bars for evaluating the indicator claims concretely. -/
def c7bars : List Bar :=
  [{ date := 1, time := 10, open_ := 2, high := 2, low := 2, close := 2,
     volume := 5 },
   { date := 2, time := 20, open_ := 3, high := 3, low := 3, close := 3,
     volume := 6 }]

/-- C7 witness: on two concrete bars with previous close 2 and current
open 3, `gap_open` at position 1 is `1/2`. -/
theorem gap_open_spec_witness :
    1 < c7bars.length ∧ gap_open c7bars 1 = some (1/2) := by
  have h := (gap_open_spec c7bars 1 (by norm_num [c7bars])).2.1
    (by norm_num) (1/2)
  refine ⟨by norm_num [c7bars], h.mpr ⟨?_, ?_⟩⟩
  · norm_num [c7bars]
  · norm_num [c7bars]

/-- C6: the trailing window at `i` has `min 20 (i+1)` observations ending
at `i`; `vol_z[i]` is undefined exactly when `vol_std[i]` (the standard
deviation of that window) is zero, and otherwise equals
`(volume[i] - vol_ma[i]) / vol_std[i]` with `vol_ma` the window mean. -/
theorem vol_z_spec (rows : List Bar) (i : ℕ) (hi : i < rows.length) :
    (volWindow rows i).length = min 20 (i + 1) ∧
    (vol_z rows i = none ↔ vol_std rows i = 0) ∧
    ∀ z, vol_z rows i = some z →
      z = ((rows[i].volume - vol_ma rows i : ℚ) : ℝ) / vol_std rows i := by
  have hwl : (volWindow rows i).length = min 20 (i + 1) := by
    simp only [volWindow, List.length_map, List.length_drop, List.length_take]
    omega
  have hnn : (0 : ℝ) ≤ vol_std rows i := Real.sqrt_nonneg _
  refine ⟨hwl, ?_, ?_⟩
  · unfold vol_z
    rw [List.getElem?_eq_getElem hi]
    by_cases hs : vol_std rows i = 0
    · simp [hs]
    · have hpos : 0 < vol_std rows i := lt_of_le_of_ne hnn (Ne.symm hs)
      simp [hs, hpos]
  · intro z hz
    unfold vol_z at hz
    rw [List.getElem?_eq_getElem hi] at hz
    by_cases hs : vol_std rows i = 0
    · simp [hs] at hz
    · have hpos : 0 < vol_std rows i := lt_of_le_of_ne hnn (Ne.symm hs)
      dsimp only at hz
      rw [if_pos ⟨hs, hpos⟩] at hz
      exact (Option.some_inj.mp hz).symm

/-- A single bar, whose one-element trailing window has zero standard
deviation. -/
def c6bars : List Bar :=
  [{ date := 1, time := 10, open_ := 2, high := 2, low := 2, close := 2,
     volume := 5 }]

/-- C6 witness: on a single bar the window is the one-element volume list,
its standard deviation is zero, and `vol_z` is undefined. -/
theorem vol_z_spec_witness :
    0 < c6bars.length ∧ (volWindow c6bars 0).length = min 20 1 ∧
    vol_z c6bars 0 = none := by
  have h := vol_z_spec c6bars 0 (by norm_num [c6bars])
  have hstd : vol_std c6bars 0 = 0 := by
    have hv : npVariance (volWindow c6bars 0) = 0 := by
      norm_num [npVariance, npMean, volWindow, c6bars]
    simp [vol_std, npStd, hv]
  exact ⟨by norm_num [c6bars], h.1, h.2.1.mpr hstd⟩

/-! ### DataFetcher: cross-asset merge (`data_fetcher.py`, `merge_data`) -/

/-- A primary-sequence row as seen by `merge_data`.  `date` is the date
token; `base` abstracts every other dict entry (OHLCV, indicators), which
the merge never reads but which participates in the dict equality used by
`list.index`.  `spy_ret` and `vix_ret` carry two `Option` layers: the
outer one models key presence (pre-merge rows lack the keys; the merge
always writes them), the inner one the stored value (`None` or a float). -/
structure MRow where
  date : ℕ
  base : ℕ
  spy_ret : Option (Option ℚ)
  vix_ret : Option (Option ℚ)
  deriving DecidableEq, Repr

/-- Lookup in a Python dict built by `{r["date"]: r["close"] for r in rs}`:
later entries overwrite earlier ones. -/
def dlookup (l : List (ℕ × ℚ)) (d : ℕ) : Option ℚ :=
  l.foldl (fun acc p => if p.1 = d then some p.2 else acc) none

/-- Python `list.index(row)`: position of the first element equal to
`row`.  The merge only calls it with `row` drawn from the list, so the
not-found (`ValueError`) case cannot arise. -/
def pyIndex (l : List MRow) (r : MRow) : ℕ := l.findIdx (fun x => x == r)

/-- The `for j, r in enumerate(...)` scan of the VIX block: the first
position whose row carries the given date, or `none` when no row does. -/
def firstDateIdx (l : List MRow) (d : ℕ) : Option ℕ :=
  let j := l.findIdx (fun x => x.date == d)
  if j < l.length then some j else none

/-- One iteration of the `merge_data` loop (data_fetcher.py lines
146-184) on the row at position `i`.  The SPY value is computed with
`list.index` on the current list state (before the row is written), the
VIX value with the date scan; both only read dates and the lookups, so
computing them from the pre-step list and writing once is the Python
behaviour.  `if idx and idx > 0` is `0 < idx` for a found index and the
`None` branch otherwise; `... if prev_spy else None` guards a zero
previous close. -/
def merge_step (spyD vixD : List (ℕ × ℚ)) (rows : List MRow) (i : ℕ) :
    List MRow :=
  match rows[i]? with
  | none => rows
  | some row =>
    let date := row.date
    let spyVal : Option ℚ :=
      match dlookup spyD date with
      | none => none
      | some curr_spy =>
        let idx := pyIndex rows row
        if 0 < idx then
          match rows[idx - 1]? with
          | none => none
          | some prevRow =>
            match dlookup spyD prevRow.date with
            | none => none
            | some prev_spy =>
              if prev_spy ≠ 0 then some (curr_spy / prev_spy - 1.0) else none
        else none
    let vixVal : Option ℚ :=
      match dlookup vixD date with
      | none => none
      | some curr_vix =>
        match firstDateIdx rows date with
        | none => none
        | some idx =>
          if 0 < idx then
            match rows[idx - 1]? with
            | none => none
            | some prevRow =>
              match dlookup vixD prevRow.date with
              | none => none
              | some prev_vix =>
                if prev_vix ≠ 0 then some (curr_vix / prev_vix - 1.0)
                else none
          else none
    rows.set i { row with spy_ret := some spyVal, vix_ret := some vixVal }

/-- `DataFetcher.merge_data` (data_fetcher.py lines 124-186): enrich every
primary row in order with `spy_ret` and `vix_ret`. -/
def merge_data (spyD vixD : List (ℕ × ℚ)) (rows : List MRow) : List MRow :=
  (List.range rows.length).foldl (merge_step spyD vixD) rows

/-- Modelled from the amended claim's words: the companion return of
primary bar `i` is `close[date[i]]/close[date[i-1]] - 1` when `i > 0`,
both dates exist in the companion lookup and the close at the previous
date is nonzero; undefined otherwise, and always undefined at position
0. -/
def spec_companion_ret (dict : List (ℕ × ℚ)) (rows : List MRow) (i : ℕ) :
    Option ℚ :=
  if i = 0 then none
  else
    match rows[i]?, rows[i-1]? with
    | some curr, some prev =>
      match dlookup dict curr.date, dlookup dict prev.date with
      | some c, some p => if p ≠ 0 then some (c / p - 1.0) else none
      | _, _ => none
    | _, _ => none

/-- State of the merge loop after the first `k` rows have been processed:
the length is unchanged, rows from `k` on are untouched, and every row
before `k` carries the specified companion returns. -/
def MergedUpTo (spyD vixD : List (ℕ × ℚ)) (rows cur : List MRow) (k : ℕ) :
    Prop :=
  cur.length = rows.length ∧
  (∀ j, k ≤ j → cur[j]? = rows[j]?) ∧
  (∀ j, j < k → ∀ (hj : j < rows.length),
    cur[j]? = some { rows[j] with
      spy_ret := some (spec_companion_ret spyD rows j),
      vix_ret := some (spec_companion_ret vixD rows j) })

theorem mergedUpTo_date {spyD vixD : List (ℕ × ℚ)} {rows cur : List MRow}
    {k : ℕ} (h : MergedUpTo spyD vixD rows cur k) (j : ℕ)
    (hj : j < rows.length) :
    ∀ (hjc : j < cur.length), cur[j].date = rows[j].date := by
  intro hjc
  obtain ⟨hlen, hge, hlt⟩ := h
  by_cases hjk : j < k
  · have h1 := hlt j hjk hj
    rw [List.getElem?_eq_getElem hjc] at h1
    rw [Option.some_inj.mp h1]
  · have h1 : cur[j]? = rows[j]? := hge j (by omega)
    rw [List.getElem?_eq_getElem hjc, List.getElem?_eq_getElem hj] at h1
    rw [Option.some_inj.mp h1]

theorem mergedUpTo_getElem_eq {spyD vixD : List (ℕ × ℚ)}
    {rows cur : List MRow} {k : ℕ} (h : MergedUpTo spyD vixD rows cur k)
    (hk : k < rows.length) :
    ∀ (hkc : k < cur.length), cur[k] = rows[k] := by
  intro hkc
  have h1 : cur[k]? = rows[k]? := h.2.1 k le_rfl
  rw [List.getElem?_eq_getElem hkc, List.getElem?_eq_getElem hk] at h1
  exact Option.some_inj.mp h1

theorem pyIndex_merged {spyD vixD : List (ℕ × ℚ)} {rows cur : List MRow}
    {k : ℕ} (hnd : (rows.map (fun r => r.date)).Nodup)
    (h : MergedUpTo spyD vixD rows cur k) (hk : k < rows.length) :
    pyIndex cur rows[k] = k := by
  have hlen : cur.length = rows.length := h.1
  have hkc : k < cur.length := by omega
  unfold pyIndex
  rw [List.findIdx_eq hkc]
  refine ⟨by simp [mergedUpTo_getElem_eq h hk hkc], ?_⟩
  intro j hjk
  have hjr : j < rows.length := by omega
  simp only [beq_eq_false_iff_ne, ne_eq]
  intro heq
  have hd : rows[j].date = rows[k].date := by
    rw [← mergedUpTo_date h j hjr (by omega), heq]
  have hjeq : j = k := by
    have hj2 : j < (rows.map (fun r => r.date)).length := by
      simp only [List.length_map]
      omega
    have hk2 : k < (rows.map (fun r => r.date)).length := by
      simp only [List.length_map]
      omega
    have hmap : (rows.map (fun r => r.date))[j]
        = (rows.map (fun r => r.date))[k] := by
      simp only [List.getElem_map]
      exact hd
    exact (hnd.getElem_inj_iff).mp hmap
  omega

theorem firstDateIdx_merged {spyD vixD : List (ℕ × ℚ)}
    {rows cur : List MRow} {k : ℕ}
    (hnd : (rows.map (fun r => r.date)).Nodup)
    (h : MergedUpTo spyD vixD rows cur k) (hk : k < rows.length) :
    firstDateIdx cur rows[k].date = some k := by
  have hlen : cur.length = rows.length := h.1
  have hkc : k < cur.length := by omega
  have hfi : cur.findIdx (fun x => x.date == rows[k].date) = k := by
    rw [List.findIdx_eq hkc]
    refine ⟨by simp [mergedUpTo_getElem_eq h hk hkc], ?_⟩
    intro j hjk
    have hjr : j < rows.length := by omega
    simp only [beq_eq_false_iff_ne, ne_eq]
    intro heq
    have hd : rows[j].date = rows[k].date := by
      rw [← mergedUpTo_date h j hjr (by omega), heq]
    have hjeq : j = k := by
      have hj2 : j < (rows.map (fun r => r.date)).length := by
        simp only [List.length_map]
        omega
      have hk2 : k < (rows.map (fun r => r.date)).length := by
        simp only [List.length_map]
        omega
      have hmap : (rows.map (fun r => r.date))[j]
          = (rows.map (fun r => r.date))[k] := by
        simp only [List.getElem_map]
        exact hd
      exact (hnd.getElem_inj_iff).mp hmap
    omega
  unfold firstDateIdx
  rw [hfi, if_pos hkc]

theorem merge_step_eq_zero (spyD vixD : List (ℕ × ℚ)) (cur : List MRow)
    (row : MRow) (hck : cur[0]? = some row) (hpy : pyIndex cur row = 0)
    (hfd : firstDateIdx cur row.date = some 0) :
    merge_step spyD vixD cur 0
      = cur.set 0 { row with spy_ret := some none, vix_ret := some none } := by
  unfold merge_step
  rw [hck]
  dsimp only
  simp only [hpy, hfd, lt_self_iff_false, if_false]
  cases dlookup spyD row.date <;> cases dlookup vixD row.date <;> rfl

theorem merge_step_eq (spyD vixD : List (ℕ × ℚ)) (cur : List MRow)
    (k : ℕ) (row prev : MRow) (hck : cur[k]? = some row)
    (hpy : pyIndex cur row = k) (hfd : firstDateIdx cur row.date = some k)
    (hk0 : 0 < k) (hprev : cur[k-1]? = some prev) :
    merge_step spyD vixD cur k
      = cur.set k { row with
          spy_ret := some (match dlookup spyD row.date,
              dlookup spyD prev.date with
            | some c, some p => if p ≠ 0 then some (c / p - 1.0) else none
            | _, _ => none),
          vix_ret := some (match dlookup vixD row.date,
              dlookup vixD prev.date with
            | some c, some p => if p ≠ 0 then some (c / p - 1.0) else none
            | _, _ => none) } := by
  unfold merge_step
  rw [hck]
  dsimp only
  simp only [hpy, hfd, hk0, if_true, hprev]
  cases dlookup spyD row.date <;> cases dlookup spyD prev.date <;>
    cases dlookup vixD row.date <;> cases dlookup vixD prev.date <;> rfl

theorem merge_fold_mergedUpTo (spyD vixD : List (ℕ × ℚ))
    (rows : List MRow) (hnd : (rows.map (fun r => r.date)).Nodup) :
    ∀ k, k ≤ rows.length →
      MergedUpTo spyD vixD rows
        ((List.range k).foldl (merge_step spyD vixD) rows) k := by
  intro k
  induction k with
  | zero =>
    intro _
    exact ⟨rfl, fun j _ => rfl, fun j hj _ => absurd hj (Nat.not_lt_zero j)⟩
  | succ k ih =>
    intro hk1
    have hk : k < rows.length := by omega
    have hcur := ih (by omega)
    rw [List.range_succ, List.foldl_append, List.foldl_cons, List.foldl_nil]
    generalize hgen : (List.range k).foldl (merge_step spyD vixD) rows = cur at hcur
    have hlen : cur.length = rows.length := hcur.1
    have hkc : k < cur.length := by omega
    have hck : cur[k]? = some rows[k] := by
      rw [hcur.2.1 k le_rfl]
      exact List.getElem?_eq_getElem hk
    have hpy := pyIndex_merged hnd hcur hk
    have hfd := firstDateIdx_merged hnd hcur hk
    by_cases hk0 : k = 0
    · subst hk0
      rw [merge_step_eq_zero spyD vixD cur rows[0] hck hpy hfd]
      refine ⟨by simp [hlen], ?_, ?_⟩
      · intro j hj
        rw [List.getElem?_set_ne (by omega : (0:ℕ) ≠ j)]
        exact hcur.2.1 j (by omega)
      · intro j hj hjr
        have hj0 : j = 0 := by omega
        subst hj0
        rw [List.getElem?_set_self (by omega : 0 < cur.length)]
        rfl
    · have hk1l : k - 1 < rows.length := by omega
      have hprev : cur[k-1]? = some { rows[k-1] with
          spy_ret := some (spec_companion_ret spyD rows (k-1)),
          vix_ret := some (spec_companion_ret vixD rows (k-1)) } :=
        hcur.2.2 (k-1) (by omega) hk1l
      rw [merge_step_eq spyD vixD cur k rows[k] _ hck hpy hfd
        (by omega) hprev]
      have hspec : ∀ d : List (ℕ × ℚ),
          spec_companion_ret d rows k
            = match dlookup d rows[k].date, dlookup d rows[k-1].date with
              | some c, some p => if p ≠ 0 then some (c / p - 1.0) else none
              | _, _ => none := by
        intro d
        unfold spec_companion_ret
        rw [if_neg hk0, List.getElem?_eq_getElem hk,
          List.getElem?_eq_getElem hk1l]
      refine ⟨by simp [hlen], ?_, ?_⟩
      · intro j hj
        rw [List.getElem?_set_ne (by omega : k ≠ j)]
        exact hcur.2.1 j (by omega)
      · intro j hj hjr
        by_cases hjk : j < k
        · rw [List.getElem?_set_ne (by omega : k ≠ j)]
          exact hcur.2.2 j hjk hjr
        · have hjeq : j = k := by omega
          subst hjeq
          rw [List.getElem?_set_self hkc]
          rw [hspec spyD, hspec vixD]

/-- C4 (amended): when the primary dates are pairwise distinct, every
merged row at position `i` carries `spy_ret` and `vix_ret` equal to the
specified companion return: `close[date[i]]/close[date[i-1]] - 1` when
`i > 0`, both dates are in the lookup and the previous close is nonzero;
`None` otherwise (in particular at position 0). -/
theorem merge_data_companion (spyD vixD : List (ℕ × ℚ)) (rows : List MRow)
    (hnd : (rows.map (fun r => r.date)).Nodup) (i : ℕ)
    (hi : i < rows.length) :
    (merge_data spyD vixD rows)[i]? = some
      { rows[i] with
        spy_ret := some (spec_companion_ret spyD rows i),
        vix_ret := some (spec_companion_ret vixD rows i) } ∧
    spec_companion_ret spyD rows 0 = none ∧
    spec_companion_ret vixD rows 0 = none := by
  have h := merge_fold_mergedUpTo spyD vixD rows hnd rows.length le_rfl
  exact ⟨h.2.2 i hi hi, rfl, rfl⟩

/-- Two primary rows with distinct dates 1 and 2 and no companion keys
yet. -/
def c4rows : List MRow :=
  [{ date := 1, base := 0, spy_ret := none, vix_ret := none },
   { date := 2, base := 0, spy_ret := none, vix_ret := none }]

/-- A companion lookup whose close at date 1 is zero. -/
def c4spyD0 : List (ℕ × ℚ) := [(1, 0), (2, 5)]

/-- A companion lookup with nonzero closes. -/
def c4spyD : List (ℕ × ℚ) := [(1, 3), (2, 6)]

/-- C4 counterexample: both date 2 and the previous primary date 1 exist
in the companion lookup, yet because the companion close at date 1 is
zero (`... if prev_spy else None`), the merged `spy_ret` of the bar at
position 1 is `None` — the claim says it would be defined. -/
theorem merge_data_zero_close_counterexample :
    (dlookup c4spyD0 1).isSome = true ∧
    (dlookup c4spyD0 2).isSome = true ∧
    ((merge_data c4spyD0 [] c4rows)[1]?).map (fun r => r.spy_ret)
      = some (some none) := by
  refine ⟨rfl, rfl, ?_⟩
  rfl

/-- C4 witness: the amended theorem instantiated at position 1 of the
two-row sequence with distinct dates. -/
theorem merge_data_companion_witness :
    (c4rows.map (fun r => r.date)).Nodup ∧ 1 < c4rows.length ∧
    ((merge_data c4spyD [] c4rows)[1]?).map (fun r => r.spy_ret)
      = some (some (spec_companion_ret c4spyD c4rows 1)) ∧
    ((merge_data c4spyD [] c4rows)[1]?).map (fun r => r.vix_ret)
      = some (some (spec_companion_ret [] c4rows 1)) := by
  have hnd : (c4rows.map (fun r => r.date)).Nodup := by decide
  have hlen : 1 < c4rows.length := by norm_num [c4rows]
  have h := (merge_data_companion c4spyD [] c4rows hnd 1 hlen).1
  rw [h]
  exact ⟨hnd, hlen, rfl, rfl⟩

end QuantSuperior
